import Mathlib

/-!
Verification development for the limit-calculator program (`main.py`).

The program's own logic (the `classify_limit` classifier, the seven
`resolver_*` strategies and the `solve_limit` dispatcher) is embedded
shallowly below.  Every heavy symbolic operation (substitution,
simplification, factoring, differentiation, limit evaluation) is delegated
by the program to the external computer-algebra engine (sympy); those
operations are therefore modelled here behind an explicit `Engine` record
of (fallible) operations, together with one concrete instance `sympyE`
that models the engine's behaviour on the expression fragment exercised by
the properties under scrutiny.  The decision logic itself — which branch
of `classify_limit` fires, which resolver runs, which engine calls are
made and in which order, how failures fall through — is translated
directly from the source.

Explanation strings produced by the program are presentation-only; the
embedding keeps the result-relevant data (classification records and
final values) exact and abbreviates the narrative text, except for the
error note of the `ERRO` classification, whose exact shape matters.
-/

/-- Symbolic expressions over the single real variable `x`, mirroring the
expression trees the program receives from the parser.  `div` is kept as a
constructor (the engine's `fraction` splits on it). -/
inductive Expr where
  | const (q : ℚ)
  | var
  | add (a b : Expr)
  | sub (a b : Expr)
  | mul (a b : Expr)
  | div (a b : Expr)
  | pow (a b : Expr)
  | sinE (a : Expr)
  | cosE (a : Expr)
  | logE (a : Expr)
deriving DecidableEq, Repr

/-- Evaluated values, modelling the distinguished sympy values the
classifier inspects: exact rationals, an unevaluated-but-finite real
(`irr`, e.g. `sin 1`), a finite non-real value (`cplx`), the two signed
infinities, complex infinity (`zoo`, written `cinf`) and `nan`. -/
inductive Val where
  | fin (q : ℚ)
  | irr
  | cplx
  | posInf
  | negInf
  | cinf
  | nanV
deriving DecidableEq, Repr

/-- Model of sympy `is_finite` truthiness (`nan`, infinities: falsy). -/
def isFinite : Val → Bool
  | .fin _ => true
  | .irr => true
  | .cplx => true
  | _ => false

/-- Model of sympy `is_real` truthiness. -/
def isReal : Val → Bool
  | .fin _ => true
  | .irr => true
  | _ => false

/-- The conjunction `is_finite and is_real` used by the classifier. -/
def isFiniteReal (v : Val) : Bool := isFinite v && isReal v

/-- Model of `v.has(oo) or v.has(-oo)` on an evaluated value (`-oo` is
`Mul(-1, oo)` in sympy, so both signed infinities contain `oo`; `zoo` and
`nan` do not). -/
def hasInfSym : Val → Bool
  | .posInf => true
  | .negInf => true
  | _ => false

/-- Extended addition on evaluated values, following sympy's automatic
evaluation (`oo + (-oo) = nan`, `zoo + zoo = nan`, `zoo + finite = zoo`). -/
def addV : Val → Val → Val
  | .nanV, _ => .nanV
  | _, .nanV => .nanV
  | .cinf, .cinf => .nanV
  | .cinf, .posInf => .nanV
  | .cinf, .negInf => .nanV
  | .posInf, .cinf => .nanV
  | .negInf, .cinf => .nanV
  | .cinf, _ => .cinf
  | _, .cinf => .cinf
  | .posInf, .negInf => .nanV
  | .negInf, .posInf => .nanV
  | .posInf, _ => .posInf
  | _, .posInf => .posInf
  | .negInf, _ => .negInf
  | _, .negInf => .negInf
  | .cplx, _ => .cplx
  | _, .cplx => .cplx
  | .irr, _ => .irr
  | _, .irr => .irr
  | .fin a, .fin b => .fin (a + b)

/-- Negation on evaluated values. -/
def negV : Val → Val
  | .fin q => .fin (-q)
  | .irr => .irr
  | .cplx => .cplx
  | .posInf => .negInf
  | .negInf => .posInf
  | .cinf => .cinf
  | .nanV => .nanV

/-- Subtraction on evaluated values. -/
def subV (a b : Val) : Val := addV a (negV b)

/-- Extended multiplication, following sympy (`0 * oo = nan`,
`0 * zoo = nan`, signed infinities multiply by sign). -/
def mulV : Val → Val → Val
  | .nanV, _ => .nanV
  | _, .nanV => .nanV
  | .cinf, .fin a => if a = 0 then .nanV else .cinf
  | .fin a, .cinf => if a = 0 then .nanV else .cinf
  | .cinf, _ => .cinf
  | _, .cinf => .cinf
  | .posInf, .posInf => .posInf
  | .posInf, .negInf => .negInf
  | .negInf, .posInf => .negInf
  | .negInf, .negInf => .posInf
  | .posInf, .fin a => if a = 0 then .nanV else if a > 0 then .posInf else .negInf
  | .fin a, .posInf => if a = 0 then .nanV else if a > 0 then .posInf else .negInf
  | .negInf, .fin a => if a = 0 then .nanV else if a > 0 then .negInf else .posInf
  | .fin a, .negInf => if a = 0 then .nanV else if a > 0 then .negInf else .posInf
  | .posInf, _ => .nanV
  | _, .posInf => .nanV
  | .negInf, _ => .nanV
  | _, .negInf => .nanV
  | .cplx, .fin a => if a = 0 then .fin 0 else .cplx
  | .fin a, .cplx => if a = 0 then .fin 0 else .cplx
  | .cplx, _ => .cplx
  | _, .cplx => .cplx
  | .irr, .fin a => if a = 0 then .fin 0 else .irr
  | .fin a, .irr => if a = 0 then .fin 0 else .irr
  | .irr, .irr => .irr
  | .fin a, .fin b => .fin (a * b)

/-- Reciprocal, following sympy (`1/0 = zoo`, `1/oo = 0`, `1/zoo = 0`). -/
def invV : Val → Val
  | .fin a => if a = 0 then .cinf else .fin a⁻¹
  | .irr => .irr
  | .cplx => .cplx
  | .posInf => .fin 0
  | .negInf => .fin 0
  | .cinf => .fin 0
  | .nanV => .nanV

/-- Division `a / b = a * b⁻¹` as sympy represents it (so `0/0 = nan`,
`1/0 = zoo`). -/
def divV (a b : Val) : Val := mulV a (invV b)

/-- Extended power, following sympy's automatic evaluation on the cases
the program can reach (`1**oo = nan`, `oo**0 = 1`, `0**0 = 1`,
`0**(-1) = zoo`). -/
def powV : Val → Val → Val
  | .nanV, _ => .nanV
  | _, .nanV => .nanV
  | .fin a, .fin b =>
      if b.den = 1 then
        if b.num ≥ 0 then .fin (a ^ b.num.toNat)
        else if a = 0 then .cinf
        else .fin ((a ^ (-b.num).toNat)⁻¹)
      else
        if a = 0 then (if b > 0 then .fin 0 else .cinf)
        else if a = 1 then .fin 1
        else if a > 0 then .irr
        else .cplx
  | .fin a, .posInf =>
      if a = 1 then .nanV
      else if a > 1 then .posInf
      else if a > -1 then .fin 0
      else .nanV
  | .fin a, .negInf =>
      if a = 1 then .nanV
      else if a > 1 then .fin 0
      else if a = 0 then .cinf
      else if a > 0 then .posInf
      else if a ≥ -1 then .nanV
      else .fin 0
  | .posInf, .fin b => if b = 0 then .fin 1 else if b > 0 then .posInf else .fin 0
  | .negInf, .fin b =>
      if b = 0 then .fin 1
      else if b.den = 1 then
        if b.num > 0 then (if b.num % 2 = 0 then .posInf else .negInf) else .fin 0
      else .cplx
  | .posInf, .posInf => .posInf
  | .posInf, .negInf => .fin 0
  | .negInf, .posInf => .nanV
  | .negInf, .negInf => .fin 0
  | .irr, .fin b => if b = 0 then .fin 1 else .irr
  | .fin a, .irr => if a > 0 then .irr else if a = 0 then .nanV else .cplx
  | .irr, .irr => .irr
  | _, _ => .nanV

/-- Sine of an evaluated value (`sin 0 = 0`, other finite rationals give
an unevaluated finite real, infinite arguments give no value). -/
def sinV : Val → Val
  | .fin q => if q = 0 then .fin 0 else .irr
  | .irr => .irr
  | _ => .nanV

/-- Cosine of an evaluated value (`cos 0 = 1`). -/
def cosV : Val → Val
  | .fin q => if q = 0 then .fin 1 else .irr
  | .irr => .irr
  | _ => .nanV

/-- Natural logarithm of an evaluated value (`log 0 = zoo`, `log 1 = 0`,
negative arguments are non-real, `log oo = oo`). -/
def logV : Val → Val
  | .fin q => if q = 1 then .fin 0 else if q = 0 then .cinf else if q > 0 then .irr else .cplx
  | .irr => .irr
  | .posInf => .posInf
  | _ => .nanV

/-- Exponential of an evaluated value (`exp 0 = 1`, `exp (-oo) = 0`). -/
def expV : Val → Val
  | .fin q => if q = 0 then .fin 1 else .irr
  | .irr => .irr
  | .posInf => .posInf
  | .negInf => .fin 0
  | _ => .nanV

/-- Model of the composite `simplify(expr.subs(x, point))` operation the
program performs: substitute the point for the variable and evaluate
numerically with sympy's extended arithmetic. -/
def evalV : Expr → Val → Val
  | .const q, _ => .fin q
  | .var, p => p
  | .add a b, p => addV (evalV a p) (evalV b p)
  | .sub a b, p => subV (evalV a p) (evalV b p)
  | .mul a b, p => mulV (evalV a p) (evalV b p)
  | .div a b, p => divV (evalV a p) (evalV b p)
  | .pow a b, p => powV (evalV a p) (evalV b p)
  | .sinE a, p => sinV (evalV a p)
  | .cosE a, p => cosV (evalV a p)
  | .logE a, p => logV (evalV a p)

/-- Dense polynomial over `ℚ`: coefficient list, lowest degree first. -/
abbrev QPoly := List ℚ

/-- Drop trailing zero coefficients. -/
def normPoly (p : QPoly) : QPoly := (p.reverse.dropWhile (· = 0)).reverse

/-- Leading coefficient (0 for the zero polynomial). -/
def leadC (p : QPoly) : ℚ := p.getLast?.getD 0

/-- Pointwise polynomial addition. -/
def polyAdd : QPoly → QPoly → QPoly
  | [], q => q
  | p, [] => p
  | a :: p, b :: q => (a + b) :: polyAdd p q

/-- Scalar multiple of a polynomial. -/
def polyScale (c : ℚ) (p : QPoly) : QPoly := p.map (c * ·)

/-- Polynomial subtraction. -/
def polySubP (p q : QPoly) : QPoly := polyAdd p (polyScale (-1) q)

/-- Multiplication by `x^k`. -/
def polyMulXk (k : Nat) (p : QPoly) : QPoly := List.replicate k 0 ++ p

/-- Polynomial multiplication. -/
def polyMul : QPoly → QPoly → QPoly
  | [], _ => []
  | a :: p, q => polyAdd (polyScale a q) (polyMulXk 1 (polyMul p q))

/-- Polynomial power. -/
def polyPow (p : QPoly) : Nat → QPoly
  | 0 => [1]
  | n + 1 => polyMul p (polyPow p n)

/-- Fuelled euclidean division step, returning (quotient, remainder);
the divisor is assumed normalized and nonzero. -/
def polyDivModAux : Nat → QPoly → QPoly → QPoly × QPoly
  | 0, a, _ => ([], a)
  | fuel + 1, a, b =>
      let a2 := normPoly a
      if a2.length < b.length ∨ a2 = [] then ([], a2)
      else
        let k := a2.length - b.length
        let c := leadC a2 / leadC b
        let r := normPoly (polySubP a2 (polyScale c (polyMulXk k b)))
        let qr := polyDivModAux fuel r b
        (polyAdd qr.1 (polyScale c (polyMulXk k [1])), qr.2)

/-- Euclidean division of polynomials. -/
def polyDivMod (a b : QPoly) : QPoly × QPoly := polyDivModAux (a.length + 1) (normPoly a) (normPoly b)

/-- Polynomial quotient. -/
def polyQuot (a b : QPoly) : QPoly := (polyDivMod a b).1

/-- Polynomial remainder. -/
def polyMod (a b : QPoly) : QPoly := (polyDivMod a b).2

/-- Make a nonzero polynomial monic. -/
def monicP (p : QPoly) : QPoly := if leadC p = 0 then p else polyScale (leadC p)⁻¹ p

/-- Fuelled euclidean gcd of polynomials, monic-normalized. -/
def polyGcdAux : Nat → QPoly → QPoly → QPoly
  | 0, a, _ => monicP (normPoly a)
  | fuel + 1, a, b =>
      let b2 := normPoly b
      if b2 = [] then monicP (normPoly a) else polyGcdAux fuel b2 (polyMod a b2)

/-- Euclidean gcd of polynomials. -/
def polyGcd (a b : QPoly) : QPoly := polyGcdAux (a.length + b.length + 2) a b

/-- Degree of a normalized nonzero polynomial (0 for constants). -/
def polyDegN (p : QPoly) : Nat := p.length - 1

/-- Smart addition mirroring sympy's automatic evaluation (`0 + e = e`,
constants fold). -/
def addS : Expr → Expr → Expr
  | .const a, .const b => .const (a + b)
  | .const a, b => if a = 0 then b else .add (.const a) b
  | a, .const b => if b = 0 then a else .add a (.const b)
  | a, b => .add a b

/-- Smart subtraction (`e - 0 = e`, constants fold). -/
def subS : Expr → Expr → Expr
  | .const a, .const b => .const (a - b)
  | a, .const b => if b = 0 then a else .sub a (.const b)
  | a, b => .sub a b

/-- Smart multiplication (`0 * e = 0`, `1 * e = e`, constants fold). -/
def mulS : Expr → Expr → Expr
  | .const a, .const b => .const (a * b)
  | .const a, b => if a = 0 then .const 0 else if a = 1 then b else .mul (.const a) b
  | a, .const b => if b = 0 then .const 0 else if b = 1 then a else .mul a (.const b)
  | a, b => .mul a b

/-- Smart division (`e / 1 = e`, constants fold when the denominator is a
nonzero constant), modelling sympy's automatic evaluation of `a / b`. -/
def divS : Expr → Expr → Expr
  | .const a, .const b => if b = 0 then .div (.const a) (.const b) else .const (a / b)
  | a, .const b => if b = 1 then a else .div a (.const b)
  | a, b => .div a b

/-- Smart power (`e ** 1 = e`, `e ** 0 = 1`, constants fold on natural
exponents). -/
def powS : Expr → Expr → Expr
  | .const a, .const b =>
      if b.den = 1 ∧ b.num ≥ 0 then .const (a ^ b.num.toNat) else .pow (.const a) (.const b)
  | a, .const b => if b = 1 then a else if b = 0 then .const 1 else .pow a (.const b)
  | a, b => .pow a b

/-- Convert an expression to a dense polynomial in `x` when it is one. -/
def toPoly : Expr → Option QPoly
  | .const q => some [q]
  | .var => some [0, 1]
  | .add a b => do pure (polyAdd (← toPoly a) (← toPoly b))
  | .sub a b => do pure (polySubP (← toPoly a) (← toPoly b))
  | .mul a b => do pure (polyMul (← toPoly a) (← toPoly b))
  | .div a b => do
      let pb ← toPoly b
      match normPoly pb with
      | [c] => if c = 0 then none else pure (polyScale c⁻¹ (← toPoly a))
      | _ => none
  | .pow a (.const q) =>
      if q.den = 1 ∧ q.num ≥ 0 then do pure (polyPow (← toPoly a) q.num.toNat) else none
  | _ => none

/-- Rebuild a canonical expression from a polynomial. -/
def toExprP (p : QPoly) : Expr :=
  ((normPoly p).enum.filter (fun ic => ic.2 ≠ 0)).foldl
    (fun acc ic => addS acc (mulS (Expr.const ic.2) (powS Expr.var (Expr.const (ic.1 : ℚ)))))
    (Expr.const 0)

/-- Model of the engine's `cancel`: on a quotient of polynomials, divide
out the monic gcd; elsewhere return the expression unchanged. -/
def cancelV (e : Expr) : Expr :=
  match e with
  | Expr.div a b =>
      match toPoly a, toPoly b with
      | some pa, some pb =>
          let pa := normPoly pa
          let pb := normPoly pb
          if pa = [] ∨ pb = [] then e
          else
            let g := polyGcd pa pb
            if polyDegN g = 0 then e
            else
              let qa := polyQuot pa g
              let qb := polyQuot pb g
              if polyDegN (normPoly qb) = 0 then
                match normPoly qb with
                | [c] => toExprP (polyScale c⁻¹ qa)
                | _ => e
              else Expr.div (toExprP qa) (toExprP qb)
      | _, _ => e
  | _ => e

/-- Model of the engine's symbolic derivative `diff(e, x)`. -/
def diffV : Expr → Expr
  | .const _ => .const 0
  | .var => .const 1
  | .add a b => addS (diffV a) (diffV b)
  | .sub a b => subS (diffV a) (diffV b)
  | .mul a b => addS (mulS (diffV a) b) (mulS a (diffV b))
  | .div a b => divS (subS (mulS (diffV a) b) (mulS a (diffV b))) (powS b (.const 2))
  | .pow a (.const q) => mulS (mulS (.const q) (powS a (.const (q - 1)))) (diffV a)
  | .pow a b => mulS (.pow a b) (addS (mulS (diffV b) (.logE a)) (divS (mulS b (diffV a)) a))
  | .sinE a => mulS (.cosE a) (diffV a)
  | .cosE a => mulS (.const (-1)) (mulS (.sinE a) (diffV a))
  | .logE a => divS (diffV a) a

/-- Model of sympy's `fraction`: split a quotient into numerator and
denominator, with denominator 1 otherwise. -/
def fractionE : Expr → Expr × Expr
  | .div a b => (a, b)
  | e => (e, .const 1)

/-- Whether a node is an additive combination (sympy `isinstance(e, Add)`;
`a - b` is an `Add` in sympy). -/
def isAddNode : Expr → Bool
  | .add _ _ => true
  | .sub _ _ => true
  | _ => false

/-- Top-level additive terms (sympy `e.args` on an `Add`; subtraction
contributes negated terms, as sympy's automatic `-1` distribution does). -/
def addTerms : Expr → List Expr
  | .add a b => addTerms a ++ addTerms b
  | .sub a b => addTerms a ++ (addTerms b).map (fun t => Expr.mul (.const (-1)) t)
  | e => [e]

/-- Whether a node is a product (sympy `isinstance(e, Mul)`; a quotient is
a `Mul` in sympy). -/
def isMulNode : Expr → Bool
  | .mul _ _ => true
  | .div _ _ => true
  | _ => false

/-- Top-level multiplicative factors (sympy `e.args` on a `Mul`; a
quotient contributes the reciprocal of its denominator as a factor). -/
def mulFactors : Expr → List Expr
  | .mul a b => mulFactors a ++ mulFactors b
  | .div a b => mulFactors a ++ [Expr.div (.const 1) b]
  | e => [e]

/-- Index and value of the lowest-degree nonzero coefficient. -/
def firstNonzero : QPoly → Option (Nat × ℚ)
  | [] => none
  | c :: rest =>
      if c ≠ 0 then some (0, c)
      else (firstNonzero rest).map (fun ic => (ic.1 + 1, ic.2))

/-- Coefficients of `P (a + y)` as a polynomial in `y` (Taylor shift). -/
def polyShift : QPoly → ℚ → QPoly
  | [], _ => []
  | c :: rest, a => polyAdd [c] (polyMul [a, 1] (polyShift rest a))

/-- Model of the external engine's limit evaluation `limit(e, x, p, dir)`
(`dir` one of `"+"`, `"-"`, `"+-"`), on the fragment the verified
properties exercise: when substitution already yields a finite real value
the function is continuous there and that value is the limit; for a
quotient whose numerator substitutes to a nonzero rational and whose
denominator is a polynomial vanishing at the (finite) point, the one-sided
limits are the signed infinities determined by the sign of the numerator
and the sign of the denominator on the chosen side.  Elsewhere the model
returns the substituted value. -/
def limitV (e : Expr) (p : Val) (d : String) : Val :=
  let v := evalV e p
  if isFiniteReal v then v
  else
    match e, p with
    | Expr.div n dn, Val.fin a =>
        (match evalV n (Val.fin a), toPoly dn with
        | Val.fin c, some pd =>
            if c = 0 then v
            else
              (match firstNonzero (polyShift (normPoly pd) a) with
              | some mc =>
                  if mc.1 = 0 then v
                  else
                    let sAbove : Bool := mc.2 > 0
                    let sBelow : Bool := if mc.1 % 2 = 0 then sAbove else !sAbove
                    let cPos : Bool := c > 0
                    if d = "+" then (if cPos = sAbove then Val.posInf else Val.negInf)
                    else if d = "-" then (if cPos = sBelow then Val.posInf else Val.negInf)
                    else
                      if mc.1 % 2 = 0 then (if cPos = sAbove then Val.posInf else Val.negInf)
                      else Val.nanV
              | none => v)
        | _, _ => v)
    | _, _ => v

/-- The external symbolic engine as a record of fallible operations, in
the interface shape the program uses them (`evalF` is the composite
substitute-and-simplify, `limitS` is `limit(e, x, p, dir)` with an
explicit direction string).  Every operation may raise (modelled as
`Except.error` carrying the exception message). -/
structure Engine where
  evalF : Expr → Val → Except String Val
  fracF : Expr → Except String (Expr × Expr)
  factorF : Expr → Except String Expr
  cancelF : Expr → Except String Expr
  expandF : Expr → Except String Expr
  simplifyF : Expr → Except String Expr
  togetherF : Expr → Except String Expr
  diffF : Expr → Except String Expr
  degreeF : Expr → Except String (Option Nat)
  limitS : Expr → Val → String → Except String Val

/-- Degree in the engine's convention: `none` models sympy's `-oo` for
the zero polynomial; non-polynomial input raises. -/
def degreeV (e : Expr) : Except String (Option Nat) :=
  match toPoly e with
  | some pl =>
      match normPoly pl with
      | [] => .ok none
      | q => .ok (some (q.length - 1))
  | none => .error "PolynomialError"

/-- The concrete engine instance: total models of the sympy operations on
the fragment under scrutiny (`factor`, `expand`, `simplify` and
`together` are modelled as identities — `cancelV` performs the actual
common-factor cancellation the factor-and-cancel pipeline produces). -/
def sympyE : Engine where
  evalF := fun e p => .ok (evalV e p)
  fracF := fun e => .ok (fractionE e)
  factorF := fun e => .ok e
  cancelF := fun e => .ok (cancelV e)
  expandF := fun e => .ok e
  simplifyF := fun e => .ok e
  togetherF := fun e => .ok e
  diffF := fun e => .ok (diffV e)
  degreeF := degreeV
  limitS := fun e p d => .ok (limitV e p d)

/-- Model of a call to the engine's `limit` entry point with an optional
direction argument, mirroring sympy's argument handling: at `+oo` the
direction is overridden to `"-"`, at `-oo` to `"+"`; an absent direction
(`None` in the source's generic branch) is rejected with a type error;
an unrecognized direction string is rejected. A plain three-argument call
`limit(e, x, p)` corresponds to `some "+"`, the engine's default. -/
def limitPy (E : Engine) (e : Expr) (p : Val) (d : Option String) : Except String Val :=
  let d2 := if p = Val.posInf then some "-" else if p = Val.negInf then some "+" else d
  match d2 with
  | none => .error "direction must be of type basestring or Symbol, not NoneType"
  | some s =>
      if s = "+" ∨ s = "-" ∨ s = "+-" then E.limitS e p s
      else .error "direction must be one of plus, minus or both"

/-- Lift an engine result into a resolver result (the resolvers return an
optional final value; `none` is the program's does-not-exist marker). -/
def liftOpt : Except String Val → Except String (Option Val)
  | .ok r => .ok (some r)
  | .error m => .error m

/-- The classification record (`LimitClassification` dataclass). -/
structure LimitClassification where
  tipo : String
  valor_substituicao : Option Val
  observacoes : String
  numerador : Option Val := none
  denominador : Option Val := none
deriving DecidableEq, Repr

/-- Evaluate a list of expressions at the point, stopping at the first
engine error (models the per-term `t.subs(x_symbol, point)` loop inside
the classifier's `try`). -/
def evalTerms (E : Engine) (ts : List Expr) (p : Val) : Except String (List Val) :=
  match ts with
  | [] => .ok []
  | t :: rest =>
      match E.evalF t p with
      | .error m => .error m
      | .ok v =>
          match evalTerms E rest p with
          | .error m => .error m
          | .ok vs => .ok (v :: vs)

/-- The classifier's additive-combination step (`isinstance(expr, Add)`
branch of `classify_limit`): among the top-level terms evaluated at the
point, one `+oo` and one `-oo` give the infinity-minus-infinity tag. -/
def addCheck (E : Engine) (e : Expr) (p : Val) : Except String (Option LimitClassification) :=
  if isAddNode e then
    match evalTerms E (addTerms e) p with
    | .error m => .error m
    | .ok ts =>
        if ts.contains Val.posInf ∧ ts.contains Val.negInf then
          .ok (some ⟨"INFINITO_MENOS_INFINITO", none, "Indeterminação oo - oo", none, none⟩)
        else .ok none
  else .ok none

/-- The classifier's product step (`isinstance(expr, Mul)` branch): a
factor equal to zero and an infinite factor give the zero-times-infinity
tag. -/
def mulCheck (E : Engine) (e : Expr) (p : Val) : Except String (Option LimitClassification) :=
  if isMulNode e then
    match evalTerms E (mulFactors e) p with
    | .error m => .error m
    | .ok fs =>
        if fs.contains (Val.fin 0) ∧ fs.any hasInfSym then
          .ok (some ⟨"ZERO_VEZES_INFINITO", none, "Indeterminação 0 · oo", none, none⟩)
        else .ok none
  else .ok none

/-- The classifier's power step (`isinstance(expr, Pow)` branch): the
three exponential indeterminate forms, checked in source order. -/
def powCheck (E : Engine) (e : Expr) (p : Val) : Except String (Option LimitClassification) :=
  match e with
  | Expr.pow b ex =>
      match E.evalF b p with
      | .error m => .error m
      | .ok base =>
          match E.evalF ex p with
          | .error m => .error m
          | .ok expoente =>
              if base = Val.fin 1 ∧ hasInfSym expoente then
                .ok (some ⟨"UM_POTENCIA_INFINITO", none, "Indeterminação 1^oo", none, none⟩)
              else if base = Val.fin 0 ∧ expoente = Val.fin 0 then
                .ok (some ⟨"ZERO_POTENCIA_ZERO", none, "Indeterminação 0^0", none, none⟩)
              else if hasInfSym base ∧ expoente = Val.fin 0 then
                .ok (some ⟨"INFINITO_POTENCIA_ZERO", none, "Indeterminação oo^0", none, none⟩)
              else .ok none
  | _ => .ok none

/-- The body of `classify_limit`'s `try` block: substitute and simplify,
split into numerator and denominator, and run the ordered first-match-wins
checks of the source. -/
def classify_body (E : Engine) (e : Expr) (p : Val) : Except String LimitClassification :=
  match E.evalF e p with
  | .error m => .error m
  | .ok valor_sub =>
  match E.fracF e with
  | .error m => .error m
  | .ok nd =>
  match E.evalF nd.1 p with
  | .error m => .error m
  | .ok num_val =>
  match E.evalF nd.2 p with
  | .error m => .error m
  | .ok den_val =>
  if isFiniteReal valor_sub then
    .ok ⟨"FINITO", some valor_sub, "Substituição direta resulta em valor finito",
         some num_val, some den_val⟩
  else if den_val = Val.fin 0 ∧ num_val ≠ Val.fin 0 ∧ isFinite num_val then
    .ok ⟨"NUMERO_SOBRE_ZERO", none, "Numerador não nulo, denominador 0",
         some num_val, some den_val⟩
  else if num_val = Val.fin 0 ∧ den_val = Val.fin 0 then
    .ok ⟨"ZERO_SOBRE_ZERO", none, "Indeterminação 0/0", some num_val, some den_val⟩
  else if hasInfSym num_val ∧ hasInfSym den_val then
    .ok ⟨"INFINITO_SOBRE_INFINITO", none, "Indeterminação oo/oo", some num_val, some den_val⟩
  else
    match addCheck E e p with
    | .error m => .error m
    | .ok (some c) => .ok c
    | .ok none =>
    match mulCheck E e p with
    | .error m => .error m
    | .ok (some c) => .ok c
    | .ok none =>
    match powCheck E e p with
    | .error m => .error m
    | .ok (some c) => .ok c
    | .ok none =>
        .ok ⟨"GENERICO", some valor_sub, "Resultado da substituição registrado", none, none⟩

/-- `classify_limit`: the classification body wrapped in the source's
`try/except`, every exception yielding the `ERRO` tag with the message
appended to the fixed note prefix. -/
def classify_limit (E : Engine) (e : Expr) (p : Val) : LimitClassification :=
  match classify_body E e p with
  | .ok c => c
  | .error m => ⟨"ERRO", none, "Erro na classificação: " ++ m, none, none⟩

/-- `resolver_finito`: returns the classification's recorded substituted
value verbatim; no engine computation is performed. -/
def resolver_finito (e : Expr) (p : Val) (classification : LimitClassification) : Option Val :=
  classification.valor_substituicao

/-- `resolver_numero_sobre_zero`: compute both lateral limits (unguarded
engine calls), then branch on the requested direction — `both` compares
them and reports does-not-exist (`none`) on disagreement, `+` and `-`
return the corresponding lateral limit unconditionally. -/
def resolver_numero_sobre_zero (E : Engine) (e : Expr) (p : Val)
    (classification : LimitClassification) (direction : String) :
    Except String (Option Val) :=
  match limitPy E e p (some "-") with
  | .error m => .error m
  | .ok lim_esquerda =>
  match limitPy E e p (some "+") with
  | .error m => .error m
  | .ok lim_direita =>
  if direction = "both" then
    if lim_esquerda = lim_direita then .ok (some lim_esquerda) else .ok none
  else if direction = "+" then .ok (some lim_direita)
  else .ok (some lim_esquerda)

/-- `resolver_zero_sobre_zero`: split into numerator and denominator,
try factor-and-cancel (returning the substituted value of the cancelled
form when it differs from the input and is finite and real), expand at
zero (informational), then L'Hôpital, and finally the direct engine
evaluation of the original expression; each guarded attempt falls through
on failure exactly as the source's nested `try/except` does. -/
def resolver_zero_sobre_zero (E : Engine) (e : Expr) (p : Val) : Except String (Option Val) :=
  match E.fracF e with
  | .error m => .error m
  | .ok nd =>
  let num := nd.1
  let den := nd.2
  let firstTry : Option Val :=
    match E.factorF num with
    | .error _ => none
    | .ok fn =>
    match E.factorF den with
    | .error _ => none
    | .ok fd =>
    match E.cancelF (divS fn fd) with
    | .error _ => none
    | .ok expr_simplificada =>
    if expr_simplificada ≠ e then
      match E.evalF expr_simplificada p with
      | .error _ => none
      | .ok resultado => if isFiniteReal resultado then some resultado else none
    else none
  match firstTry with
  | some r => .ok (some r)
  | none =>
  let step2 : Except String Unit :=
    if p = Val.fin 0 then
      match E.expandF e with
      | .error m => .error m
      | .ok _ => .ok ()
    else .ok ()
  match step2 with
  | .error m => .error m
  | .ok _ =>
  match E.diffF num, E.diffF den with
  | .ok num_derivada, .ok den_derivada =>
      (match limitPy E (divS num_derivada den_derivada) p (some "+") with
      | .ok r => .ok (some r)
      | .error _ => liftOpt (limitPy E e p (some "+")))
  | _, _ => liftOpt (limitPy E e p (some "+"))

/-- `resolver_infinito_sobre_infinito`: at an infinite point, try the
dominant-term division (divide numerator and denominator by `x` to the
denominator's degree), then L'Hôpital, then direct engine evaluation. -/
def resolver_infinito_sobre_infinito (E : Engine) (e : Expr) (p : Val) :
    Except String (Option Val) :=
  match E.fracF e with
  | .error m => .error m
  | .ok nd =>
  let num := nd.1
  let den := nd.2
  let firstTry : Option Val :=
    if p = Val.posInf ∨ p = Val.negInf then
      match E.degreeF num, E.degreeF den with
      | .ok dN, .ok dD =>
          let grau_den := dD.getD 0
          let _grau_num := dN.getD 0
          if grau_den > 0 then
            let poder := Expr.pow Expr.var (Expr.const (grau_den : ℚ))
            match E.simplifyF (divS num poder), E.simplifyF (divS den poder) with
            | .ok num_dividido, .ok den_dividido =>
                (match limitPy E (divS num_dividido den_dividido) p (some "+") with
                | .ok r => some r
                | .error _ => none)
            | _, _ => none
          else none
      | _, _ => none
    else none
  match firstTry with
  | some r => .ok (some r)
  | none =>
  match E.diffF num, E.diffF den with
  | .ok num_derivada, .ok den_derivada =>
      (match limitPy E (divS num_derivada den_derivada) p (some "+") with
      | .ok r => .ok (some r)
      | .error _ => liftOpt (limitPy E e p (some "+")))
  | _, _ => liftOpt (limitPy E e p (some "+"))

/-- `resolver_infinito_menos_infinito`: combine into a single fraction
with `together`; if the combined form differs, evaluate its limit, else
fall back to direct evaluation of the original expression. -/
def resolver_infinito_menos_infinito (E : Engine) (e : Expr) (p : Val) :
    Except String (Option Val) :=
  let firstTry : Option Val :=
    match E.togetherF e with
    | .error _ => none
    | .ok expr_frac =>
        if expr_frac ≠ e then
          match limitPy E expr_frac p (some "+") with
          | .ok r => some r
          | .error _ => none
        else none
  match firstTry with
  | some r => .ok (some r)
  | none => liftOpt (limitPy E e p (some "+"))

/-- `resolver_zero_vezes_infinito`: the engine is invoked directly on the
original expression (the conceptual rewrite is explanation-only). -/
def resolver_zero_vezes_infinito (E : Engine) (e : Expr) (p : Val) :
    Except String (Option Val) :=
  liftOpt (limitPy E e p (some "+"))

/-- `resolver_exponencial_indeterminado`: for a power whose base is a
two-term sum containing 1, use the `(1+u)^v → e^(lim u·v)` identity
(unguarded engine calls); otherwise the logarithm method inside a
`try/except`; otherwise direct evaluation. -/
def resolver_exponencial_indeterminado (E : Engine) (e : Expr) (p : Val)
    (classification : LimitClassification) : Except String (Option Val) :=
  let step1 : Except String (Option Val) :=
    match e with
    | Expr.pow base expoente =>
        if isAddNode base ∧ (addTerms base).length = 2 then
          if (addTerms base).contains (Expr.const 1) then
            match E.simplifyF (mulS (Expr.sub base (Expr.const 1)) expoente) with
            | .error m => .error m
            | .ok produto =>
                match limitPy E produto p (some "+") with
                | .error m => .error m
                | .ok lim_produto =>
                    if isFinite lim_produto then .ok (some (expV lim_produto)) else .ok none
          else .ok none
        else .ok none
    | _ => .ok none
  match step1 with
  | .error m => .error m
  | .ok (some r) => .ok (some r)
  | .ok none =>
  let step2 : Option Val :=
    match E.simplifyF (Expr.logE e) with
    | .error _ => none
    | .ok ln_simplificado =>
        match limitPy E ln_simplificado p (some "+") with
        | .error _ => none
        | .ok lim_ln => if isFinite lim_ln then some (expV lim_ln) else none
  match step2 with
  | some r => .ok (some r)
  | none => liftOpt (limitPy E e p (some "+"))

/-- The generic/unclassified branch of `solve_limit`'s dispatch: invoke
the engine on the original expression, passing the requested direction
when it is one-sided and the absent-direction marker when it is `both`. -/
def genericBranch (E : Engine) (e : Expr) (p : Val) (direction : String) :
    Except String (Option Val) :=
  liftOpt (limitPy E e p (if direction ≠ "both" then some direction else none))

/-- The `if/elif` dispatch of `solve_limit` over the classification tag
(result component only; every unlisted tag, including `GENERICO` and
`ERRO`, reaches the final direct-evaluation branch). -/
def dispatch (E : Engine) (e : Expr) (p : Val) (c : LimitClassification)
    (direction : String) : Except String (Option Val) :=
  if c.tipo = "FINITO" then .ok (resolver_finito e p c)
  else if c.tipo = "NUMERO_SOBRE_ZERO" then resolver_numero_sobre_zero E e p c direction
  else if c.tipo = "ZERO_SOBRE_ZERO" then resolver_zero_sobre_zero E e p
  else if c.tipo = "INFINITO_SOBRE_INFINITO" then resolver_infinito_sobre_infinito E e p
  else if c.tipo = "INFINITO_MENOS_INFINITO" then resolver_infinito_menos_infinito E e p
  else if c.tipo = "ZERO_VEZES_INFINITO" then resolver_zero_vezes_infinito E e p
  else if c.tipo = "UM_POTENCIA_INFINITO" ∨ c.tipo = "ZERO_POTENCIA_ZERO" ∨
          c.tipo = "INFINITO_POTENCIA_ZERO" then
    resolver_exponencial_indeterminado E e p c
  else genericBranch E e p direction

/-- The compute core of `solve_limit` after parsing: classify, then run
the resolver selected by the tag.  Returns the classification record and
the dispatch outcome (`Except.error` models an exception escaping to the
top-level handler). -/
def solve_core (E : Engine) (e : Expr) (p : Val) (direction : String) :
    LimitClassification × Except String (Option Val) :=
  let classification := classify_limit E e p
  (classification, dispatch E e p classification direction)

/-- Model of Python's `str.lower` (character-wise lowercasing). -/
def strLower (s : String) : String := ⟨s.data.map Char.toLower⟩

/-- The direction-normalization step of `solve_limit` (lines 527–535):
case-insensitive recognition of the one-sided tokens, everything else
silently becoming `both`. -/
def normalizeDirection (direction : String) : String :=
  if strLower direction ∈ (["+", "direita", "right"] : List String) then "+"
  else if strLower direction ∈ (["-", "esquerda", "left"] : List String) then "-"
  else "both"

/-- `solve_limit`'s compute pipeline including direction normalization. -/
def solve_limit_core (E : Engine) (e : Expr) (p : Val) (direction : String) :
    LimitClassification × Except String (Option Val) :=
  solve_core E e p (normalizeDirection direction)

/-- Running the classify-and-resolve pipeline twice on the same inputs
(the embedding of a repeated query; the program keeps no state between
queries). -/
def runQueryTwice (E : Engine) (e : Expr) (p : Val) (direction : String) :
    (LimitClassification × Except String (Option Val)) ×
    (LimitClassification × Except String (Option Val)) :=
  (solve_core E e p direction, solve_core E e p direction)

/-- Decidable equality for engine results (used to state concrete
outcomes). -/
def exceptEqDec {ε α : Type} [DecidableEq ε] [DecidableEq α] : DecidableEq (Except ε α)
  | .error a, .error b =>
      if h : a = b then .isTrue (by rw [h]) else .isFalse (fun hh => h (by cases hh; rfl))
  | .error _, .ok _ => .isFalse (fun hh => Except.noConfusion hh)
  | .ok _, .error _ => .isFalse (fun hh => Except.noConfusion hh)
  | .ok a, .ok b =>
      if h : a = b then .isTrue (by rw [h]) else .isFalse (fun hh => h (by cases hh; rfl))

instance {ε α : Type} [DecidableEq ε] [DecidableEq α] : DecidableEq (Except ε α) :=
  exceptEqDec

/-- The expression `1/x`. -/
def oneOverX : Expr := .div (.const 1) .var

/-- The expression `(x**2 - 4)/(x - 2)`. -/
def exC3 : Expr := .div (.sub (.pow .var (.const 2)) (.const 4)) (.sub .var (.const 2))

/-- The expression `sin(x)/x`. -/
def exC4 : Expr := .div (.sinE .var) .var

/-- The expression `x + 1`. -/
def exFinito : Expr := .add .var (.const 1)

/-- An engine whose `factor` and `diff` operations raise (as sympy's do on
inputs outside their reach, e.g. `PolynomialError`), forcing the
zero-over-zero resolver past both of its guarded attempts; the remaining
operations are those of the concrete model. -/
def failingEngine : Engine :=
  { sympyE with
    factorF := fun _ => .error "PolynomialError"
    diffF := fun _ => .error "NotImplementedError" }

/-- An engine whose substitute-and-simplify operation raises, making the
classification body itself fail. -/
def errEngine : Engine :=
  { sympyE with evalF := fun _ _ => .error "cannot determine truth value" }

/-- C1: for every expression whose simplified substitution at the point is
a finite real value, `classify_limit` returns the `FINITO` tag with that
substituted value recorded, and `resolver_finito` returns exactly that
value as the final result (its definition performs no engine call, so no
further computation happens). -/
theorem c1_finito_classification_and_resolver (e : Expr) (p v : Val)
    (hv : evalV e p = v) (hfin : isFiniteReal v = true) :
    (classify_limit sympyE e p).tipo = "FINITO" ∧
    (classify_limit sympyE e p).valor_substituicao = some v ∧
    resolver_finito e p (classify_limit sympyE e p) = some v := by
  subst hv
  refine ⟨?_, ?_, ?_⟩ <;>
    simp [classify_limit, classify_body, sympyE, resolver_finito, hfin]

/-- C1 witness: `x + 1` at the point `2` substitutes to `3`, is classified
`FINITO` with recorded value `3`, and the finite resolver returns `3`. -/
theorem c1_finito_classification_and_resolver_witness :
    (classify_limit sympyE exFinito (Val.fin 2)).tipo = "FINITO" ∧
    (classify_limit sympyE exFinito (Val.fin 2)).valor_substituicao = some (Val.fin 3) ∧
    resolver_finito exFinito (Val.fin 2) (classify_limit sympyE exFinito (Val.fin 2)) =
      some (Val.fin 3) :=
  c1_finito_classification_and_resolver exFinito (Val.fin 2) (Val.fin 3)
    (by with_unfolding_all rfl) (by with_unfolding_all rfl)

/-- C2: for a `NUMERO_SOBRE_ZERO` classification resolved with direction
`both`, the resolver computes the two lateral limits; equal lateral limits
give that common value, different lateral limits give the does-not-exist
marker (`none`, an ordinary result, not an error).  In particular `1/x` at
`0` with direction `both` is classified `NUMERO_SOBRE_ZERO` and resolves
to does-not-exist. -/
theorem c2_numero_sobre_zero_both_directions (E : Engine) (e : Expr) (p : Val)
    (c : LimitClassification) (le ld : Val)
    (hle : limitPy E e p (some "-") = .ok le)
    (hld : limitPy E e p (some "+") = .ok ld) :
    (le = ld → resolver_numero_sobre_zero E e p c "both" = .ok (some le)) ∧
    (le ≠ ld → resolver_numero_sobre_zero E e p c "both" = .ok none) ∧
    (classify_limit sympyE oneOverX (Val.fin 0)).tipo = "NUMERO_SOBRE_ZERO" ∧
    (solve_core sympyE oneOverX (Val.fin 0) "both").2 = .ok none := by
  refine ⟨?_, ?_, by with_unfolding_all rfl, by with_unfolding_all rfl⟩ <;>
    intro h <;> simp [resolver_numero_sobre_zero, hle, hld, h]

/-- C2 witness: applied to the concrete engine at `1/x`, point `0`, where
the lateral limits are `-oo` and `+oo`; being different, the resolver
reports does-not-exist. -/
theorem c2_numero_sobre_zero_both_directions_witness :
    Val.negInf ≠ Val.posInf ∧
    resolver_numero_sobre_zero sympyE oneOverX (Val.fin 0)
      (classify_limit sympyE oneOverX (Val.fin 0)) "both" = .ok none :=
  ⟨by decide,
   (c2_numero_sobre_zero_both_directions sympyE oneOverX (Val.fin 0)
      (classify_limit sympyE oneOverX (Val.fin 0)) Val.negInf Val.posInf
      (by with_unfolding_all rfl) (by with_unfolding_all rfl)).2.1 (by decide)⟩

/-- C3: for a `ZERO_SOBRE_ZERO` classification, when factoring numerator
and denominator, dividing and cancelling produces an expression different
from the original whose substitution at the point is finite and real, the
resolver returns that substituted value immediately — the engine's
differentiation and limit operations are arbitrary here, so L'Hôpital is
never consulted.  In particular `(x**2-4)/(x-2)` at `2` is classified
`ZERO_SOBRE_ZERO`, cancels to `2 + x`, and resolves to `4`. -/
theorem c3_zero_sobre_zero_factor_cancel (E : Engine) (e : Expr) (p : Val)
    (num den fn fd es : Expr) (v : Val)
    (hfrac : E.fracF e = .ok (num, den))
    (hfn : E.factorF num = .ok fn)
    (hfd : E.factorF den = .ok fd)
    (hcancel : E.cancelF (divS fn fd) = .ok es)
    (hne : es ≠ e)
    (heval : E.evalF es p = .ok v)
    (hfin : isFiniteReal v = true) :
    resolver_zero_sobre_zero E e p = .ok (some v) ∧
    (classify_limit sympyE exC3 (Val.fin 2)).tipo = "ZERO_SOBRE_ZERO" ∧
    cancelV exC3 = Expr.add (Expr.const 2) Expr.var ∧
    (solve_core sympyE exC3 (Val.fin 2) "both").2 = .ok (some (Val.fin 4)) := by
  refine ⟨?_, by with_unfolding_all rfl, by with_unfolding_all rfl,
    by with_unfolding_all rfl⟩
  simp [resolver_zero_sobre_zero, hfrac, hfn, hfd, hcancel, hne, heval, hfin]

/-- C3 witness: the concrete engine on `(x**2-4)/(x-2)` at `2` satisfies
every hypothesis (cancelled form `2 + x`, substitution `4`), and the
resolver returns `4`. -/
theorem c3_zero_sobre_zero_factor_cancel_witness :
    resolver_zero_sobre_zero sympyE exC3 (Val.fin 2) = .ok (some (Val.fin 4)) :=
  (c3_zero_sobre_zero_factor_cancel sympyE exC3 (Val.fin 2)
    (Expr.sub (.pow .var (.const 2)) (.const 4)) (Expr.sub .var (.const 2))
    (Expr.sub (.pow .var (.const 2)) (.const 4)) (Expr.sub .var (.const 2))
    (Expr.add (.const 2) .var) (Val.fin 4)
    (by with_unfolding_all rfl) (by with_unfolding_all rfl) (by with_unfolding_all rfl)
    (by with_unfolding_all rfl) (by decide) (by with_unfolding_all rfl)
    (by with_unfolding_all rfl)).1

/-- C4: for a `ZERO_SOBRE_ZERO` classification where the
factor-and-cancel step yields no new expression, the resolver
differentiates numerator and denominator independently, forms their
ratio, evaluates its limit through the engine and returns that as the
final result.  In particular `sin(x)/x` at `0` is classified
`ZERO_SOBRE_ZERO` and resolves by L'Hôpital to `1`. -/
theorem c4_zero_sobre_zero_lhopital (E : Engine) (e : Expr) (p : Val)
    (num den fn fd es ex2 dn dd : Expr) (r : Val)
    (hfrac : E.fracF e = .ok (num, den))
    (hfn : E.factorF num = .ok fn)
    (hfd : E.factorF den = .ok fd)
    (hcancel : E.cancelF (divS fn fd) = .ok es)
    (heq : es = e)
    (hexp : E.expandF e = .ok ex2)
    (hdn : E.diffF num = .ok dn)
    (hdd : E.diffF den = .ok dd)
    (hlim : limitPy E (divS dn dd) p (some "+") = .ok r) :
    resolver_zero_sobre_zero E e p = .ok (some r) ∧
    (classify_limit sympyE exC4 (Val.fin 0)).tipo = "ZERO_SOBRE_ZERO" ∧
    (solve_core sympyE exC4 (Val.fin 0) "both").2 = .ok (some (Val.fin 1)) := by
  refine ⟨?_, by with_unfolding_all rfl, by with_unfolding_all rfl⟩
  by_cases hp : p = Val.fin 0
  · subst hp
    simp [resolver_zero_sobre_zero, hfrac, hfn, hfd, hcancel, heq, hexp, hdn, hdd, hlim]
  · simp [resolver_zero_sobre_zero, hfrac, hfn, hfd, hcancel, heq, hexp, hdn, hdd, hlim, hp]

/-- C4 witness: the concrete engine on `sin(x)/x` at `0` satisfies every
hypothesis (cancellation yields the input back, the derivatives are
`cos(x)` and `1`, the engine evaluates the ratio's limit to `1`), and the
resolver returns `1`. -/
theorem c4_zero_sobre_zero_lhopital_witness :
    resolver_zero_sobre_zero sympyE exC4 (Val.fin 0) = .ok (some (Val.fin 1)) :=
  (c4_zero_sobre_zero_lhopital sympyE exC4 (Val.fin 0)
    (Expr.sinE .var) Expr.var (Expr.sinE .var) Expr.var exC4 exC4
    (Expr.cosE .var) (Expr.const 1) (Val.fin 1)
    (by with_unfolding_all rfl) (by with_unfolding_all rfl) (by with_unfolding_all rfl)
    (by with_unfolding_all rfl) (by with_unfolding_all rfl) (by with_unfolding_all rfl)
    (by with_unfolding_all rfl) (by with_unfolding_all rfl) (by with_unfolding_all rfl)).1

/-- C5 counterexample: the terminal direct-evaluation fallback inside
`resolver_zero_sobre_zero` does not receive the requested direction at
all — it always performs the engine-default (`"+"`) evaluation of the
original expression.  On `1/x` at `0`, with an engine whose factoring and
differentiation steps raise, the resolver's fallback output is `+oo`,
whereas evaluating with the requested direction `"-"` (as the claim
states) would give `-oo`. -/
theorem c5_counterexample_fallback_direction :
    resolver_zero_sobre_zero failingEngine oneOverX (Val.fin 0) =
      liftOpt (limitPy failingEngine oneOverX (Val.fin 0) (some "+")) ∧
    liftOpt (limitPy failingEngine oneOverX (Val.fin 0) (some "+")) = .ok (some Val.posInf) ∧
    liftOpt (limitPy failingEngine oneOverX (Val.fin 0) (some "-")) = .ok (some Val.negInf) ∧
    resolver_zero_sobre_zero failingEngine oneOverX (Val.fin 0) ≠
      liftOpt (limitPy failingEngine oneOverX (Val.fin 0) (some "-")) := by
  refine ⟨by with_unfolding_all rfl, by with_unfolding_all rfl,
    by with_unfolding_all rfl, ?_⟩
  have ha : resolver_zero_sobre_zero failingEngine oneOverX (Val.fin 0) =
      (.ok (some Val.posInf) : Except String (Option Val)) := by with_unfolding_all rfl
  have hb : liftOpt (limitPy failingEngine oneOverX (Val.fin 0) (some "-")) =
      (.ok (some Val.negInf) : Except String (Option Val)) := by with_unfolding_all rfl
  rw [ha, hb]
  decide

/-- C5 (amended): the GENERIC dispatch invokes the engine on the original
expression with the requested one-sided direction when the direction is
`"+"` or `"-"`, and with the absent-direction marker when it is `both`;
the terminal fallbacks inside the resolvers instead invoke the engine on
the original expression with the engine's default direction `"+"`,
independent of the requested direction. -/
theorem c5_amended_generic_direction_fallback_default (E : Engine) (e : Expr) (p : Val)
    (d : String) (num den ex2 : Expr) (m1 m2 : String)
    (hd : d = "+" ∨ d = "-")
    (hfrac : E.fracF e = .ok (num, den))
    (hfactor : E.factorF num = .error m1)
    (hexp : E.expandF e = .ok ex2)
    (hdiff : E.diffF num = .error m2)
    (hp : ¬(p = Val.posInf ∨ p = Val.negInf)) :
    genericBranch E e p d = liftOpt (limitPy E e p (some d)) ∧
    genericBranch E e p "both" = liftOpt (limitPy E e p none) ∧
    resolver_zero_sobre_zero E e p = liftOpt (limitPy E e p (some "+")) ∧
    resolver_infinito_sobre_infinito E e p = liftOpt (limitPy E e p (some "+")) := by
  refine ⟨?_, by with_unfolding_all rfl, ?_, ?_⟩
  · rcases hd with h | h <;> subst h <;> with_unfolding_all rfl
  · by_cases hp0 : p = Val.fin 0 <;>
      simp [resolver_zero_sobre_zero, hfrac, hfactor, hexp, hdiff, hp0]
  · simp [resolver_infinito_sobre_infinito, hfrac, hp, hdiff]

/-- C5 (amended) witness: with the failing engine on `1/x` at `0` and
requested direction `"-"`, every hypothesis holds concretely. -/
theorem c5_amended_generic_direction_fallback_default_witness :
    genericBranch failingEngine oneOverX (Val.fin 0) "-" =
      liftOpt (limitPy failingEngine oneOverX (Val.fin 0) (some "-")) ∧
    genericBranch failingEngine oneOverX (Val.fin 0) "both" =
      liftOpt (limitPy failingEngine oneOverX (Val.fin 0) none) ∧
    resolver_zero_sobre_zero failingEngine oneOverX (Val.fin 0) =
      liftOpt (limitPy failingEngine oneOverX (Val.fin 0) (some "+")) ∧
    resolver_infinito_sobre_infinito failingEngine oneOverX (Val.fin 0) =
      liftOpt (limitPy failingEngine oneOverX (Val.fin 0) (some "+")) :=
  c5_amended_generic_direction_fallback_default failingEngine oneOverX (Val.fin 0)
    "-" (.const 1) .var oneOverX "PolynomialError" "NotImplementedError"
    (Or.inr rfl) (by with_unfolding_all rfl) (by with_unfolding_all rfl)
    (by with_unfolding_all rfl) (by with_unfolding_all rfl) (by decide)

/-- C6: for a `NUMERO_SOBRE_ZERO` classification with a one-sided
requested direction, the resolver returns the corresponding lateral limit
unconditionally, with no equality check against the other side.  In
particular `1/x` at `0` with direction `"+"` resolves to `+oo` although
the left-side value differs. -/
theorem c6_numero_sobre_zero_one_sided (E : Engine) (e : Expr) (p : Val)
    (c : LimitClassification) (le ld : Val)
    (hle : limitPy E e p (some "-") = .ok le)
    (hld : limitPy E e p (some "+") = .ok ld) :
    resolver_numero_sobre_zero E e p c "+" = .ok (some ld) ∧
    resolver_numero_sobre_zero E e p c "-" = .ok (some le) ∧
    (solve_core sympyE oneOverX (Val.fin 0) "+").2 = .ok (some Val.posInf) := by
  refine ⟨?_, ?_, by with_unfolding_all rfl⟩ <;>
    simp [resolver_numero_sobre_zero, hle, hld]

/-- C6 witness: the concrete engine on `1/x` at `0`, whose lateral limits
are `-oo` and `+oo`; direction `"+"` returns `+oo`, direction `"-"`
returns `-oo`. -/
theorem c6_numero_sobre_zero_one_sided_witness :
    resolver_numero_sobre_zero sympyE oneOverX (Val.fin 0)
      (classify_limit sympyE oneOverX (Val.fin 0)) "+" = .ok (some Val.posInf) ∧
    resolver_numero_sobre_zero sympyE oneOverX (Val.fin 0)
      (classify_limit sympyE oneOverX (Val.fin 0)) "-" = .ok (some Val.negInf) :=
  ⟨(c6_numero_sobre_zero_one_sided sympyE oneOverX (Val.fin 0)
      (classify_limit sympyE oneOverX (Val.fin 0)) Val.negInf Val.posInf
      (by with_unfolding_all rfl) (by with_unfolding_all rfl)).1,
   (c6_numero_sobre_zero_one_sided sympyE oneOverX (Val.fin 0)
      (classify_limit sympyE oneOverX (Val.fin 0)) Val.negInf Val.posInf
      (by with_unfolding_all rfl) (by with_unfolding_all rfl)).2.1⟩

/-- C7 counterexample: the GENERIC dispatch and the resolvers' terminal
direct-evaluation fallback are not the same primitive — the former applies
the requested direction, the latter always uses the engine default
`"+"` — so their outputs disagree on the same inputs: on `1/x` at `0`
with requested direction `"-"` the GENERIC dispatch yields `-oo` while
the fallback primitive yields `+oo`. -/
theorem c7_counterexample_generic_vs_fallback :
    genericBranch sympyE oneOverX (Val.fin 0) "-" = .ok (some Val.negInf) ∧
    liftOpt (limitPy sympyE oneOverX (Val.fin 0) (some "+")) = .ok (some Val.posInf) ∧
    genericBranch sympyE oneOverX (Val.fin 0) "-" ≠
      liftOpt (limitPy sympyE oneOverX (Val.fin 0) (some "+")) := by
  refine ⟨by with_unfolding_all rfl, by with_unfolding_all rfl, ?_⟩
  have ha : genericBranch sympyE oneOverX (Val.fin 0) "-" =
      (.ok (some Val.negInf) : Except String (Option Val)) := by with_unfolding_all rfl
  have hb : liftOpt (limitPy sympyE oneOverX (Val.fin 0) (some "+")) =
      (.ok (some Val.posInf) : Except String (Option Val)) := by with_unfolding_all rfl
  rw [ha, hb]
  decide

/-- C7 (amended): the classification tag (together with the recorded
substituted value, which only the finite resolver reads) fully determines
the dispatch outcome; the `GENERICO` and `ERRO` tags fall back to the
direct-evaluation branch; and that branch coincides with the resolvers'
terminal fallback primitive exactly when the requested direction is the
engine default `"+"`. -/
theorem c7_amended_tag_dispatch (E : Engine) (e : Expr) (p : Val) (d : String)
    (c c2 : LimitClassification)
    (htipo : c.tipo = c2.tipo)
    (hval : c.valor_substituicao = c2.valor_substituicao) :
    dispatch E e p c d = dispatch E e p c2 d ∧
    (c.tipo = "GENERICO" ∨ c.tipo = "ERRO" → dispatch E e p c d = genericBranch E e p d) ∧
    genericBranch E e p "+" = liftOpt (limitPy E e p (some "+")) := by
  refine ⟨?_, ?_, by with_unfolding_all rfl⟩
  · unfold dispatch
    rw [htipo]
    simp only [resolver_finito, hval]
    have hn : resolver_numero_sobre_zero E e p c d =
        resolver_numero_sobre_zero E e p c2 d := rfl
    have hx : resolver_exponencial_indeterminado E e p c =
        resolver_exponencial_indeterminado E e p c2 := rfl
    rw [hn, hx]
  · rintro (hg | hg) <;> (unfold dispatch; rw [hg]; with_unfolding_all rfl)

/-- C7 (amended) witness: two equal `GENERICO` records dispatch equally,
a `GENERICO` record reaches the direct-evaluation branch, and on `1/x` at
`0` with direction `"+"` the generic branch is the default-direction
engine call. -/
theorem c7_amended_tag_dispatch_witness :
    dispatch sympyE oneOverX (Val.fin 0)
      ⟨"GENERICO", some Val.cinf, "", none, none⟩ "+" =
    dispatch sympyE oneOverX (Val.fin 0)
      ⟨"GENERICO", some Val.cinf, "", none, none⟩ "+" ∧
    (("GENERICO" : String) = "GENERICO" ∨ ("GENERICO" : String) = "ERRO" →
      dispatch sympyE oneOverX (Val.fin 0)
        ⟨"GENERICO", some Val.cinf, "", none, none⟩ "+" =
        genericBranch sympyE oneOverX (Val.fin 0) "+") ∧
    genericBranch sympyE oneOverX (Val.fin 0) "+" =
      liftOpt (limitPy sympyE oneOverX (Val.fin 0) (some "+")) :=
  c7_amended_tag_dispatch sympyE oneOverX (Val.fin 0) "+"
    ⟨"GENERICO", some Val.cinf, "", none, none⟩
    ⟨"GENERICO", some Val.cinf, "", none, none⟩ rfl rfl

/-- C8: whenever the classification body raises, `classify_limit` returns
(rather than propagates) a classification with tag `ERRO` whose note is
the fixed prefix followed by the exception message verbatim. -/
theorem c8_erro_captures_exception (E : Engine) (e : Expr) (p : Val) (m : String)
    (herr : classify_body E e p = .error m) :
    classify_limit E e p =
      ⟨"ERRO", none, "Erro na classificação: " ++ m, none, none⟩ ∧
    (classify_limit E e p).tipo = "ERRO" ∧
    (classify_limit E e p).observacoes = "Erro na classificação: " ++ m := by
  refine ⟨?_, ?_, ?_⟩ <;> simp [classify_limit, herr]

/-- C8 witness: an engine whose substitution raises makes the
classification body fail, and `classify_limit` reports the `ERRO` tag
with the message preserved in the note. -/
theorem c8_erro_captures_exception_witness :
    classify_limit errEngine Expr.var (Val.fin 0) =
      ⟨"ERRO", none, "Erro na classificação: cannot determine truth value",
       none, none⟩ ∧
    (classify_limit errEngine Expr.var (Val.fin 0)).tipo = "ERRO" ∧
    (classify_limit errEngine Expr.var (Val.fin 0)).observacoes =
      "Erro na classificação: cannot determine truth value" :=
  c8_erro_captures_exception errEngine Expr.var (Val.fin 0)
    "cannot determine truth value" (by with_unfolding_all rfl)

/-- C9: running classification plus dispatch twice on the same
(expression, point, direction) triple yields the identical classification
and the identical final value — the embedded pipeline is a pure function
of its inputs, mirroring the source's absence of mutable cross-query
state. -/
theorem c9_repeated_query_identical (E : Engine) (e : Expr) (p : Val) (d : String) :
    (runQueryTwice E e p d).1 = (runQueryTwice E e p d).2 ∧
    ((runQueryTwice E e p d).1).1.tipo = ((runQueryTwice E e p d).2).1.tipo ∧
    ((runQueryTwice E e p d).1).2 = ((runQueryTwice E e p d).2).2 :=
  ⟨rfl, rfl, rfl⟩

/-- C10: direction tokens are matched on the lowercased form (two tokens
with the same lowercase normalize identically), and every token whose
lowercase is none of `+`, `direita`, `right`, `-`, `esquerda`, `left` is
silently normalized to `both` rather than rejected. -/
theorem c10_direction_token_normalization (s t u : String)
    (hst : strLower s = strLower t)
    (hu : strLower u ∉ (["+", "direita", "right", "-", "esquerda", "left"] : List String)) :
    normalizeDirection s = normalizeDirection t ∧
    normalizeDirection u = "both" := by
  constructor
  · unfold normalizeDirection
    rw [hst]
  · simp only [List.mem_cons, List.not_mem_nil, or_false, not_or] at hu
    obtain ⟨h1, h2, h3, h4, h5, h6⟩ := hu
    have hA : ¬(strLower u ∈ (["+", "direita", "right"] : List String)) := by
      simp [h1, h2, h3]
    have hB : ¬(strLower u ∈ (["-", "esquerda", "left"] : List String)) := by
      simp [h4, h5, h6]
    unfold normalizeDirection
    rw [if_neg hA, if_neg hB]

/-- C10 witness: `RIGHT` and `right` normalize identically (both to `+`),
and `upward` normalizes to `both`. -/
theorem c10_direction_token_normalization_witness :
    normalizeDirection "RIGHT" = normalizeDirection "right" ∧
    normalizeDirection "upward" = "both" :=
  c10_direction_token_normalization "RIGHT" "right" "upward"
    (by with_unfolding_all rfl) (by decide)
